import Mathlib

/-!
Verification of the validator core of lupinus, an API-server testing tool.

The development shallowly embeds the JavaScript source (`validator.js`,
together with the type declarations shipped next to it) in Lean 4:

* `Json` models the values produced by `JSON.parse` / delivered as HTTP
  response bodies;
* `Schema` models the JSON-schema subset handled by `Validator.validateJson`;
* `validateJson` is a direct translation of `Validator.validateJson`
  (the JavaScript recursion is guarded by an explicit fuel parameter that
  only serves Lean's totality checker; the source recursion always descends
  either into the data value or structurally into the schema, so any fuel
  exceeding their combined depth gives the source behaviour, and no theorem
  below depends on fuel exhaustion);
* the bracket/placeholder machinery (`replaceBrackets`, `evalBrackets`,
  `replaceContext`, `castAsComparable`, ...) is translated with the JavaScript
  regular expressions re-expressed as character-level scanners;
* `invokeRun`/`executeTestCases` model the sequence executor `Validator.invoke`
  and `Validator.executeTestCases`, with the per-step request pipeline
  (request building, the HTTP transport collaborator and the response checks,
  lines 181-418 of the source) abstracted as a step function returning either
  an error or the response body, exactly the interface the recursion uses.

Numbers are modelled as rationals: every JavaScript float is a rational, and
all comparisons performed by the source are order comparisons, on which the
two agree.  JavaScript `NaN` is represented by `Option.none` where it can
arise.  Strings are compared by code point, which agrees with JavaScript's
code-unit comparison on the basic multilingual plane.
-/

namespace Lupinus

/-- JSON values as produced by `JSON.parse`.  Object entries keep insertion
order, mirroring JavaScript object key enumeration; the parser never produces
duplicate keys. -/
inductive Json where
  | null
  | bool (b : Bool)
  | num (q : ℚ)
  | str (s : String)
  | arr (elems : List Json)
  | obj (entries : List (String × Json))

/-- Decimal digits of the fractional remainder `r / d`, produced like the
decimal expansion JavaScript prints.  The expansion of any float-representable
rational terminates, so the fuel (passed as the first argument) is never the
limiting factor for values the source can manipulate. -/
def fracDigits : Nat → Nat → Nat → List Nat
  | 0, _, _ => []
  | _ + 1, 0, _ => []
  | fuel + 1, r, d => ((r * 10) / d) :: fracDigits fuel ((r * 10) % d) d

/-- JavaScript number-to-string conversion for the rationals that model
floats: sign, integer part, and a fractional part when the value is not an
integer.  The exponent notation JavaScript switches to beyond 1e21 is outside
the modelled range. -/
def fmtNum (q : ℚ) : String :=
  let sign := if q < 0 then "-" else ""
  let n := q.num.natAbs
  let d := q.den
  let ip := n / d
  let digits := fracDigits 64 (n % d) d
  sign ++ toString ip ++
    (if digits.isEmpty then "" else "." ++ String.mk (digits.map Nat.digitChar))

/-- JSON string escaping used by `JSON.stringify`.  Control characters other
than the common escapes are not exercised by any claim. -/
def escapeJsonChar (c : Char) : String :=
  if c = '"' then "\\\""
  else if c = '\\' then "\\\\"
  else if c = '\n' then "\\n"
  else if c = '\r' then "\\r"
  else if c = '\t' then "\\t"
  else String.singleton c

/-- Escape a whole string for `JSON.stringify`. -/
def escapeJson (s : String) : String :=
  String.join (s.toList.map escapeJsonChar)

mutual

/-- Model of `JSON.stringify` (without indentation argument). -/
def jsonStringify : Json → String
  | .null => "null"
  | .bool b => if b then "true" else "false"
  | .num q => fmtNum q
  | .str s => "\"" ++ escapeJson s ++ "\""
  | .arr l => "[" ++ jsonStringifyElems l ++ "]"
  | .obj l => "\x7b" ++ jsonStringifyEntries l ++ "\x7d"

/-- Elements of an array, comma separated, for `jsonStringify`. -/
def jsonStringifyElems : List Json → String
  | [] => ""
  | [x] => jsonStringify x
  | x :: y :: l => jsonStringify x ++ "," ++ jsonStringifyElems (y :: l)

/-- Entries of an object, comma separated, for `jsonStringify`. -/
def jsonStringifyEntries : List (String × Json) → String
  | [] => ""
  | [(k, v)] => "\"" ++ escapeJson k ++ "\":" ++ jsonStringify v
  | (k, v) :: e :: l =>
    "\"" ++ escapeJson k ++ "\":" ++ jsonStringify v ++ "," ++ jsonStringifyEntries (e :: l)

end

mutual

/-- JavaScript `String(value)` conversion: `null` prints as "null", arrays
join their element displays with commas (with `null` elements displaying as
the empty string) and plain objects display as "[object Object]". -/
def jsDisplay : Json → String
  | .null => "null"
  | .bool b => if b then "true" else "false"
  | .num q => fmtNum q
  | .str s => s
  | .arr l => jsDisplayElems l
  | .obj _ => "[object Object]"

/-- Comma-joined element displays of an array; a `null` element displays as
the empty string inside `Array.prototype.toString`. -/
def jsDisplayElems : List Json → String
  | [] => ""
  | [.null] => ""
  | [x] => jsDisplay x
  | .null :: y :: l => "," ++ jsDisplayElems (y :: l)
  | x :: y :: l => jsDisplay x ++ "," ++ jsDisplayElems (y :: l)

end

/-- The keys enumerated by `Object.keys` paired with the values read back by
`data[key]`: object entries in insertion order; arrays expose their indices as
string keys; everything else has none. -/
def jsEntries : Json → List (String × Json)
  | .obj l => l
  | .arr l => l.enum.map (fun p => (toString p.1, p.2))
  | _ => []

/-- The test `data != null && typeof data == "object"` performed by the
`object` schema branch: arrays and plain objects qualify, `null` is excluded
explicitly by the source. -/
def jsObjectLike : Json → Bool
  | .arr _ => true
  | .obj _ => true
  | _ => false

/-- Schema nodes as consumed by `Validator.validateJson`.  Every keyword read
by the source is a field; an absent keyword is `none` (JavaScript `null` /
`undefined`).  The `pattern` keyword and the `format` keyword are not
modelled: their checks delegate to the JavaScript regular-expression engine
and no claim refers to them; all other string checks are present.  Numeric
keywords are rationals (JSON numbers), item/length bounds are naturals as in
every schema the tool consumes. -/
inductive Schema where
  | mk (oneOf anyOf allOf : Option (List Schema))
       (ref : Option String)
       (type : Option String)
       (properties : Option (List (String × Schema)))
       (items : Option Schema)
       (minItems maxItems minLength maxLength : Option Nat)
       (enum : Option (List String))
       (minimum maximum exclusiveMinimum exclusiveMaximum : Option ℚ)

/-- The `oneOf` keyword of a schema node. -/
def Schema.oneOf : Schema → Option (List Schema)
  | .mk o _ _ _ _ _ _ _ _ _ _ _ _ _ _ _ => o

/-- The `anyOf` keyword of a schema node. -/
def Schema.anyOf : Schema → Option (List Schema)
  | .mk _ a _ _ _ _ _ _ _ _ _ _ _ _ _ _ => a

/-- The `allOf` keyword of a schema node. -/
def Schema.allOf : Schema → Option (List Schema)
  | .mk _ _ a _ _ _ _ _ _ _ _ _ _ _ _ _ => a

/-- The `$ref` keyword of a schema node. -/
def Schema.ref : Schema → Option String
  | .mk _ _ _ r _ _ _ _ _ _ _ _ _ _ _ _ => r

/-- The `type` keyword of a schema node. -/
def Schema.type : Schema → Option String
  | .mk _ _ _ _ t _ _ _ _ _ _ _ _ _ _ _ => t

/-- The `properties` keyword of a schema node. -/
def Schema.properties : Schema → Option (List (String × Schema))
  | .mk _ _ _ _ _ p _ _ _ _ _ _ _ _ _ _ => p

/-- The `items` keyword of a schema node. -/
def Schema.items : Schema → Option Schema
  | .mk _ _ _ _ _ _ i _ _ _ _ _ _ _ _ _ => i

/-- The `minItems` keyword of a schema node. -/
def Schema.minItems : Schema → Option Nat
  | .mk _ _ _ _ _ _ _ n _ _ _ _ _ _ _ _ => n

/-- The `maxItems` keyword of a schema node. -/
def Schema.maxItems : Schema → Option Nat
  | .mk _ _ _ _ _ _ _ _ n _ _ _ _ _ _ _ => n

/-- The `minLength` keyword of a schema node. -/
def Schema.minLength : Schema → Option Nat
  | .mk _ _ _ _ _ _ _ _ _ n _ _ _ _ _ _ => n

/-- The `maxLength` keyword of a schema node. -/
def Schema.maxLength : Schema → Option Nat
  | .mk _ _ _ _ _ _ _ _ _ _ n _ _ _ _ _ => n

/-- The `enum` keyword of a schema node. -/
def Schema.enum : Schema → Option (List String)
  | .mk _ _ _ _ _ _ _ _ _ _ _ e _ _ _ _ => e

/-- The `minimum` keyword of a schema node. -/
def Schema.minimum : Schema → Option ℚ
  | .mk _ _ _ _ _ _ _ _ _ _ _ _ m _ _ _ => m

/-- The `maximum` keyword of a schema node. -/
def Schema.maximum : Schema → Option ℚ
  | .mk _ _ _ _ _ _ _ _ _ _ _ _ _ m _ _ => m

/-- The `exclusiveMinimum` keyword of a schema node. -/
def Schema.exclusiveMinimum : Schema → Option ℚ
  | .mk _ _ _ _ _ _ _ _ _ _ _ _ _ _ m _ => m

/-- The `exclusiveMaximum` keyword of a schema node. -/
def Schema.exclusiveMaximum : Schema → Option ℚ
  | .mk _ _ _ _ _ _ _ _ _ _ _ _ _ _ _ m => m

/-- A schema node with no keyword at all; concrete nodes below override the
fields they need. -/
def Schema.empty : Schema :=
  .mk none none none none none none none none none none none none none none none none

/-- Errors thrown by the embedded source.  `ValidationError` carries its
human message and the optional key label; the schema and data it also embeds
in the message text are determined by the call site and are not repeated
here.  `undef` models the JavaScript `throw error` where the outer `error`
binding was never assigned (the `catch (error) { error = error }` slip in the
composition branches leaves it `undefined`).  `typeErr` models a JavaScript
`TypeError` such as calling `toString()` on `null`.  `fuelOut` is the
artificial fuel-exhaustion marker of the embedding, unreachable for adequate
fuel. -/
inductive Err where
  | invalidSchema
  | validation (message : String) (key : Option String)
  | undef
  | typeErr
  | fuelOut
  | httpErr (message : String)
deriving Repr, DecidableEq

/-- Model of `Validator.getComponent`: only references of the exact shape
`#/components/schemas/NAME` resolve, by name lookup among the loaded
component schemas (an absent components table is the empty list). -/
def getComponent (comps : List (String × Schema)) (path : String) : Option Schema :=
  match path.toList with
  | '#' :: '/' :: 'c' :: 'o' :: 'm' :: 'p' :: 'o' :: 'n' :: 'e' :: 'n' :: 't' :: 's' :: '/' ::
      's' :: 'c' :: 'h' :: 'e' :: 'm' :: 'a' :: 's' :: '/' :: name =>
    List.lookup (String.mk name) comps
  | _ => none

/-- The `$ref` resolution applied to a property or items schema: resolve when
possible, silently keep the unresolved node otherwise (the source only
replaces `valueSchema` when `getComponent` returned non-null). -/
def resolveSubschema (comps : List (String × Schema)) (s : Schema) : Schema :=
  match s.ref with
  | some r => (getComponent comps r).getD s
  | none => s

/-- JavaScript `Array.prototype.forEach` with a body that may throw: the
first error aborts the iteration and propagates. -/
def forEachE (l : List α) (f : α → Except Err Unit) : Except Err Unit :=
  match l with
  | [] => .ok ()
  | a :: rest =>
    match f a with
    | .error e => .error e
    | .ok _ => forEachE rest f

/-- Whether a validation attempt succeeded (the `try`/`catch` test used by
the composition branches). -/
def passes (r : Except Err Unit) : Bool :=
  match r with
  | .ok _ => true
  | .error _ => false

/-- Numeric value of a digit list, read most significant first. -/
def natFromDigits (l : List Char) : Nat :=
  l.foldl (fun acc c => acc * 10 + (c.toNat - 48)) 0

/-- The whitespace characters trimmed by JavaScript `String.prototype.trim`
(the ASCII ones; the exotic Unicode space characters never occur in the
modelled inputs). -/
def jsWhitespace (c : Char) : Bool :=
  c = ' ' || c = '\t' || c = '\n' || c = '\r' || c = '\x0b' || c = '\x0c'

/-- JavaScript string trimming, on the character list. -/
def trimJS (l : List Char) : List Char :=
  ((l.dropWhile jsWhitespace).reverse.dropWhile jsWhitespace).reverse

/-- Split a character list on a separator character; like
`String.splitOn` with a one-character separator, the result always has one
more part than there are separators. -/
def splitOnChar (c : Char) : List Char → List (List Char)
  | [] => [[]]
  | x :: rest =>
    let r := splitOnChar c rest
    if x = c then [] :: r
    else
      match r with
      | h :: t => (x :: h) :: t
      | [] => [[x]]

/-- Split a character list at the first character satisfying `p`; the second
component is the remainder after that character when one was found. -/
def splitAtChar (p : Char → Bool) : List Char → (List Char × Option (List Char))
  | [] => ([], none)
  | c :: rest =>
    if p c then ([], some rest)
    else
      let r := splitAtChar p rest
      (c :: r.1, r.2)

/-- Decimal mantissa `digits[.digits]` with at least one digit overall,
returned as a numerator/denominator pair (`digits.digits` is the digit
concatenation over `10 ^ fractionLength`). -/
def parseMantissa (l : List Char) : Option (ℕ × ℕ) :=
  match splitAtChar (fun c => c = '.') l with
  | (ip, none) =>
    if ip ≠ [] ∧ ip.all Char.isDigit then some (natFromDigits ip, 1) else none
  | (ip, some fp) =>
    if (ip ≠ [] ∨ fp ≠ []) ∧ ip.all Char.isDigit ∧ fp.all Char.isDigit then
      some (natFromDigits (ip ++ fp), 10 ^ fp.length)
    else none

/-- Signed decimal exponent of a numeric literal. -/
def parseExp (l : List Char) : Option ℤ :=
  let sr : ℤ × List Char :=
    match l with
    | '+' :: r => (1, r)
    | '-' :: r => (-1, r)
    | r => (1, r)
  if sr.2 ≠ [] ∧ sr.2.all Char.isDigit then some (sr.1 * (natFromDigits sr.2 : ℤ)) else none

/-- JavaScript `ToNumber` on a string (`none` is `NaN`): trimmed empty input
is 0, otherwise an optionally signed decimal literal with optional fraction
and exponent.  The `Infinity`, hexadecimal, octal and binary literal forms
are outside the modelled fragment (they come out as `NaN` here) and are not
reachable from any claim. -/
def jsStrToNum (s : String) : Option ℚ :=
  let t := trimJS s.toList
  if t.isEmpty then some 0
  else
    let sb : Bool × List Char :=
      match t with
      | '+' :: r => (false, r)
      | '-' :: r => (true, r)
      | r => (false, r)
    match splitAtChar (fun c => c = 'e' ∨ c = 'E') sb.2 with
    | (mant, none) =>
      (parseMantissa mant).map (fun nd =>
        mkRat (if sb.1 then -(nd.1 : ℤ) else (nd.1 : ℤ)) nd.2)
    | (mant, some ex) =>
      match parseMantissa mant, parseExp ex with
      | some nd, some e =>
        let num : ℕ := nd.1 * 10 ^ e.toNat
        let den : ℕ := nd.2 * 10 ^ (-e).toNat
        some (mkRat (if sb.1 then -(num : ℤ) else (num : ℤ)) den)
      | _, _ => none

/-- JavaScript `Number(value)` on a JSON value (`none` is `NaN`). -/
def jsToNumber : Json → Option ℚ
  | .null => some 0
  | .bool b => some (if b then 1 else 0)
  | .num q => some q
  | .str s => jsStrToNum s
  | .arr l => jsStrToNum (jsDisplayElems l)
  | .obj _ => none

/-- The check `value > bound` with an optional bound and a possibly-NaN
value: absent bound or NaN never exceeds. -/
def numAbove (x : Option ℚ) (bound : Option ℚ) : Bool :=
  match bound, x with
  | some b, some v => decide (v > b)
  | _, _ => false

/-- The check `value < bound`, in the same regime as `numAbove`. -/
def numBelow (x : Option ℚ) (bound : Option ℚ) : Bool :=
  match bound, x with
  | some b, some v => decide (v < b)
  | _, _ => false

/-- The check `value >= bound`, in the same regime as `numAbove`. -/
def numAtLeast (x : Option ℚ) (bound : Option ℚ) : Bool :=
  match bound, x with
  | some b, some v => decide (v ≥ b)
  | _, _ => false

/-- The check `length > bound` for an optional length bound. -/
def natAbove (x : Nat) (bound : Option Nat) : Bool :=
  match bound with
  | some b => decide (x > b)
  | none => false

/-- The check `length < bound` for an optional length bound. -/
def natBelow (x : Nat) (bound : Option Nat) : Bool :=
  match bound with
  | some b => decide (x < b)
  | none => false

/-- Direct translation of `Validator.validateJson(data, schema, key,
enableCast)`.  Stage order follows the source: the composition keywords
(`oneOf`, then `anyOf`, then `allOf`, mutually exclusive by `else if`), then
top-level `$ref` replacement, then the `type` dispatch — a node whose type is
missing at that point throws `Schema is invalid` even when a composition
branch already succeeded, and a failing composition throws the JavaScript
`undefined` (`Err.undef`) because the `catch (error) { error = error }`
self-assignment never reaches the outer binding.  The numeric branches copy
the source comparisons verbatim, including `data < schema.exclusiveMinimum`
where the keyword's contract calls for `<=`.  The first argument after the
component table is recursion fuel (see the file header). -/
def validateJson (comps : List (String × Schema)) :
    Nat → Json → Schema → Option String → Bool → Except Err Unit
  | 0, _, _, _, _ => .error .fuelOut
  | fuel + 1, data, schema, key, enableCast =>
    let compStage : Except Err Unit :=
      match schema.oneOf with
      | some branches =>
        if branches.isEmpty then .error .invalidSchema
        else if branches.any (fun b => passes (validateJson comps fuel data b key false)) then .ok ()
        else .error .undef
      | none =>
        match schema.anyOf with
        | some branches =>
          if branches.isEmpty then .error .invalidSchema
          else if branches.any (fun b => passes (validateJson comps fuel data b key false)) then .ok ()
          else .error .undef
        | none =>
          match schema.allOf with
          | some branches =>
            if branches.isEmpty then .error .invalidSchema
            else if branches.all (fun b => passes (validateJson comps fuel data b key false)) then .ok ()
            else .error .undef
          | none => .ok ()
    match compStage with
    | .error e => .error e
    | .ok _ =>
      let resolved : Except Err Schema :=
        match schema.ref with
        | some r =>
          match getComponent comps r with
          | none => .error .invalidSchema
          | some s2 => .ok s2
        | none => .ok schema
      match resolved with
      | .error e => .error e
      | .ok s2 =>
        match s2.type with
        | none => .error .invalidSchema
        | some t =>
          if t = "array" then
            match data with
            | .arr elems =>
              if natAbove elems.length s2.maxItems then
                .error (.validation "The value is above the maximum length." key)
              else if natBelow elems.length s2.minItems then
                .error (.validation "The value is below the maximum length." key)
              else
                match s2.items with
                | none => .ok ()
                | some itemSchema =>
                  forEachE elems
                    (fun v => validateJson comps fuel v (resolveSubschema comps itemSchema) none false)
            | _ => .error (.validation "Type mismatch." key)
          else if t = "object" then
            if jsObjectLike data then
              forEachE (jsEntries data)
                (fun kv =>
                  match s2.properties with
                  | none => .ok ()
                  | some props =>
                    match List.lookup kv.1 props with
                    | none => .error (.validation "Schema not found." (some kv.1))
                    | some ps =>
                      validateJson comps fuel kv.2 (resolveSubschema comps ps) (some kv.1) false)
            else .error (.validation "Type mismatch." key)
          else if t = "string" then
            let strVal : Except Err String :=
              if enableCast then
                match data with
                | .null => .error .typeErr
                | d => .ok (jsDisplay d)
              else
                match data with
                | .str s => .ok s
                | _ => .error (.validation "Type mismatch" key)
            match strVal with
            | .error e => .error e
            | .ok sv =>
              if natAbove sv.length s2.maxLength then
                .error (.validation "The value is above the maximum length." key)
              else if natBelow sv.length s2.minLength then
                .error (.validation "The value is below the minimum length." key)
              else if (match s2.enum with | some es => ! es.contains sv | none => false) then
                .error (.validation "The value is not included in the available values." key)
              else .ok ()
          else if t = "number" then
            let numVal : Except Err (Option ℚ) :=
              if enableCast then .ok (jsToNumber data)
              else
                match data with
                | .num q => .ok (some q)
                | _ => .error (.validation "Type mismatch." key)
            match numVal with
            | .error e => .error e
            | .ok v =>
              if numAbove v s2.maximum then
                .error (.validation "The value is above the maximum value." key)
              else if numBelow v s2.minimum then
                .error (.validation "The value is below the minimum value." key)
              else if numAtLeast v s2.exclusiveMaximum then
                .error (.validation "The value is above the maximum value." key)
              else if numBelow v s2.exclusiveMinimum then
                .error (.validation "The value is below the minimum value." key)
              else .ok ()
          else if t = "integer" then
            match data with
            | .num q =>
              if (fmtNum q).toList.contains '.' then .error (.validation "Type mismatch." key)
              else if numAbove (some q) s2.maximum then
                .error (.validation "The value is above the maximum value." key)
              else if numBelow (some q) s2.minimum then
                .error (.validation "The value is below the minimum value." key)
              else if numAtLeast (some q) s2.exclusiveMaximum then
                .error (.validation "The value is above the maximum value." key)
              else if numBelow (some q) s2.exclusiveMinimum then
                .error (.validation "The value is below the minimum value." key)
              else .ok ()
            | _ => .error (.validation "Type mismatch." key)
          else if t = "boolean" then
            match data with
            | .bool _ => .ok ()
            | _ => .error (.validation "Type mismatch." key)
          else if t = "null" then
            match data with
            | .null => .ok ()
            | _ => .error (.validation "Type mismatch." key)
          else .ok ()

/-- Days between 1970-01-01 and the civil date `y-m-d`, using truncating
integer division exactly as the standard civil-calendar computation does. -/
def daysFromCivil (y m d : ℤ) : ℤ :=
  let y2 := if m ≤ 2 then y - 1 else y
  let era := (if y2 ≥ 0 then y2 else y2 - 399) / 400
  let yoe := y2 - era * 400
  let mp := (m + 9) % 12
  let doy := (153 * mp + 2) / 5 + d - 1
  let doe := yoe * 365 + yoe / 4 - yoe / 100 + doy
  era * 146097 + doe - 719468

/-- Numeric value of a two-digit pair. -/
def twoDigits (a b : Char) : ℤ :=
  ((a.toNat - 48) * 10 + (b.toNat - 48) : ℕ)

/-- Days in a month of the civil calendar. -/
def daysInMonth (y m : ℤ) : ℤ :=
  if m = 2 then (if y % 4 = 0 ∧ (y % 100 ≠ 0 ∨ y % 400 = 0) then 29 else 28)
  else if m = 4 ∨ m = 6 ∨ m = 9 ∨ m = 11 then 30
  else 31

/-- Shape and value of the timezone suffix accepted by the source's strict
ISO-8601 regular expression: `Z`, `z`, or a signed `hh:mm` offset in
minutes. -/
def parseTzOffset : List Char → Option ℤ
  | ['Z'] => some 0
  | ['z'] => some 0
  | [sg, a, b, ':', c, d] =>
    if (sg = '+' ∨ sg = '-') ∧ [a, b, c, d].all Char.isDigit then
      let minutes := twoDigits a b * 60 + twoDigits c d
      if twoDigits a b ≤ 23 ∧ twoDigits c d ≤ 59 then
        some (if sg = '-' then -minutes else minutes)
      else none
    else none
  | _ => none

/-- Combined test and evaluation of the source's strict ISO-8601 date-time
regular expression `^[0-9]{4}-[0-9]{2}-[0-9]{2}(T|t)[0-9]{2}:[0-9]{2}:
[0-9]{2}(Z|z|(\+|-)[0-9]{2}:[0-9]{2})$` followed by `new Date(s).getTime()`:
`some (some ms)` on a match with a real instant, `some none` on a match that
JavaScript still rejects as an invalid date (`NaN`), `none` when the shape
does not match at all. -/
def parseIsoDateTime (s : String) : Option (Option ℤ) :=
  match s.toList with
  | y1 :: y2 :: y3 :: y4 :: '-' :: m1 :: m2 :: '-' :: d1 :: d2 :: t ::
      h1 :: h2 :: ':' :: n1 :: n2 :: ':' :: p1 :: p2 :: rest =>
    if [y1, y2, y3, y4, m1, m2, d1, d2, h1, h2, n1, n2, p1, p2].all Char.isDigit ∧
        (t = 'T' ∨ t = 't') then
      match parseTzOffset rest with
      | none => none
      | some off =>
        let y : ℤ := (natFromDigits [y1, y2, y3, y4] : ℕ)
        let mo := twoDigits m1 m2
        let da := twoDigits d1 d2
        let h := twoDigits h1 h2
        let mi := twoDigits n1 n2
        let se := twoDigits p1 p2
        if 1 ≤ mo ∧ mo ≤ 12 ∧ 1 ≤ da ∧ da ≤ daysInMonth y mo ∧
            h ≤ 23 ∧ mi ≤ 59 ∧ se ≤ 59 then
          some (some (((daysFromCivil y mo da) * 86400 + h * 3600 + mi * 60 + se) * 1000
            - off * 60000))
        else some none
    else none
  | _ => none

/-- The `^[0-9.]+$` test of `castAsComparable` (on the display string of the
tested value, as JavaScript regular expressions stringify their input). -/
def digitsDotsTest (s : String) : Bool :=
  ! s.toList.isEmpty && s.toList.all (fun c => c.isDigit || c = '.')

/-- The values `castAsComparable` can produce: a number (with `nan` for the
JavaScript `NaN`), `null`, a raw string, a raw boolean, or an unconverted
array/object. -/
inductive Comparable where
  | num (q : ℚ)
  | nan
  | nullv
  | str (s : String)
  | boolv (b : Bool)
  | raw (j : Json)

/-- JavaScript loose equality between a JSON value and a string literal,
used for the `data == "null"` test: strings compare directly, arrays and
objects compare through their primitive (display) string, `null`, booleans
and numbers never equal the string "null". -/
def jsLooseEqNullString : Json → Bool
  | .str s => s == "null"
  | .arr l => jsDisplayElems l == "null"
  | _ => false

/-- A JSON value that was not converted, repackaged as a `Comparable` with
its own kind (the source simply returns `data`). -/
def rawComparable : Json → Comparable
  | .null => .nullv
  | .bool b => .boolv b
  | .num q => .num q
  | .str s => .str s
  | j => .raw j

/-- Direct translation of `Validator.castAsComparable(data)`.  The regular
expression tests coerce their argument to its display string; `Number` and
`new Date(...).getTime()` agree with evaluating the display string for every
value reaching this point, so both condition and result are computed from
`jsDisplay data`. -/
def castAsComparable (data : Json) : Comparable :=
  let s := jsDisplay data
  if digitsDotsTest s then
    match jsStrToNum s with
    | some q => .num q
    | none => .nan
  else
    match parseIsoDateTime s with
    | some (some ms) => .num (ms : ℚ)
    | some none => .nan
    | none =>
      if jsLooseEqNullString data then .nullv
      else rawComparable data

/-- The `ToPrimitive` coercion feeding JavaScript comparisons of the values
`castAsComparable` produces: strings (and raw arrays/objects through their
display string) stay strings, everything else goes to a number, with `none`
for `NaN` and `null` coercing to 0. -/
def toPrimC : Comparable → Sum String (Option ℚ)
  | .str s => .inl s
  | .raw j => .inl (jsDisplay j)
  | .num q => .inr (some q)
  | .nan => .inr none
  | .nullv => .inr (some 0)
  | .boolv b => .inr (some (if b then 1 else 0))

/-- JavaScript loose equality `==` on the projected operands: `null` equals
only `null`, two strings compare as strings, and mixed operands compare
numerically after `ToNumber` (`NaN` equal to nothing).  Reference equality of
two raw objects is modelled as false: the two operands of an assertion are
produced by separate query evaluations. -/
def jsEqC : Comparable → Comparable → Bool
  | .nullv, .nullv => true
  | .nullv, _ => false
  | _, .nullv => false
  | .str a, .str b => a == b
  | .raw _, .raw _ => false
  | a, b =>
    let na := match toPrimC a with | .inl s => jsStrToNum s | .inr o => o
    let nb := match toPrimC b with | .inl s => jsStrToNum s | .inr o => o
    match na, nb with
    | some x, some y => x == y
    | _, _ => false

/-- JavaScript `<` on the projected operands: two string primitives compare
lexicographically by code unit, otherwise both sides go through `ToNumber`
and any `NaN` makes the comparison false. -/
def jsLtC (a b : Comparable) : Bool :=
  match toPrimC a, toPrimC b with
  | .inl s, .inl t => decide (s < t)
  | pa, pb =>
    let na := match pa with | .inl s => jsStrToNum s | .inr o => o
    let nb := match pb with | .inl s => jsStrToNum s | .inr o => o
    match na, nb with
    | some x, some y => decide (x < y)
    | _, _ => false

/-- JavaScript `<=` on the projected operands, same regime as `jsLtC`. -/
def jsLeC (a b : Comparable) : Bool :=
  match toPrimC a, toPrimC b with
  | .inl s, .inl t => decide (s ≤ t)
  | pa, pb =>
    let na := match pa with | .inl s => jsStrToNum s | .inr o => o
    let nb := match pb with | .inl s => jsStrToNum s | .inr o => o
    match na, nb with
    | some x, some y => decide (x ≤ y)
    | _, _ => false

/-- The comparison dispatch of `evalBrackets` (source lines 461-473): `=` and
`==` via loose equality, the four order operators, `!=` as negated loose
equality, and — exactly as in the source, which has no final `else` — any
other operator string the operator class admits (such as `!` or `=>`) leaves
the group's preinitialised `result = true` untouched. -/
def applyOperator (a : Comparable) (op : String) (b : Comparable) : Bool :=
  if op = "=" ∨ op = "==" then jsEqC a b
  else if op = "<" then jsLtC a b
  else if op = "<=" then jsLeC a b
  else if op = ">" then jsLtC b a
  else if op = ">=" then jsLeC b a
  else if op = "!=" then ! jsEqC a b
  else true

/-- Character class of a comparison operand in the `evalBrackets` pattern
`^([a-zA-Z0-9_.*\(\)\[\]@<>=!$]+) ([=><!]+) ([a-zA-Z0-9_.*\(\)\[\]@<>=!$]+)$`. -/
def operandChar (c : Char) : Bool :=
  c.isAlphanum || c = '_' || c = '.' || c = '*' || c = '(' || c = ')' ||
    c = '[' || c = ']' || c = '@' || c = '<' || c = '>' || c = '=' || c = '!' || c = '$'

/-- Character class of the operator in the same pattern. -/
def operatorChar (c : Char) : Bool :=
  c = '=' || c = '>' || c = '<' || c = '!'

/-- Match of the anchored comparison pattern above.  Both operand classes and
the operator class exclude the space character and the pattern contains
exactly two literal spaces, so a group's content matches precisely when
splitting on single spaces yields three non-empty parts drawn from the
respective classes — and then the split is unique. -/
def parseComparison (g : String) : Option (String × String × String) :=
  match splitOnChar ' ' g.toList with
  | [a, b, c] =>
    if ! a.isEmpty && a.all operandChar && ! b.isEmpty && b.all operatorChar &&
        ! c.isEmpty && c.all operandChar then
      some (String.mk a, String.mk b, String.mk c)
    else none
  | _ => none

/-- Character class of the query target in the `replaceContext` pattern
`^context\[([0-9]{1,})\]\.([a-zA-Z0-9_.*\(\)\[\]@<>=!]+)$` (note: unlike the
operand class it does not contain `$`). -/
def contextTargetChar (c : Char) : Bool :=
  c.isAlphanum || c = '_' || c = '.' || c = '*' || c = '(' || c = ')' ||
    c = '[' || c = ']' || c = '@' || c = '<' || c = '>' || c = '=' || c = '!'

/-- Match of the anchored `context[N].target` pattern of `replaceContext`. -/
def parseContextRef (s : String) : Option (Nat × String) :=
  match s.toList with
  | 'c' :: 'o' :: 'n' :: 't' :: 'e' :: 'x' :: 't' :: '[' :: rest =>
    let digits := rest.takeWhile Char.isDigit
    if digits.isEmpty then none
    else
      match rest.drop digits.length with
      | ']' :: '.' :: target =>
        if ! target.isEmpty && target.all contextTargetChar then
          some (natFromDigits digits, String.mk target)
        else none
      | _ => none
  | _ => none

/-- Modelled from the jsonpath library (an external dependency of the
source): the query of a plain dot-separated member path, descending through
object keys and numeric array indices and returning the list of matches —
the only path shape the claims exercise.  Root (`$`), wildcard, filter and
bracket syntaxes of the library are outside the modelled fragment. -/
def walkPath : Json → List (List Char) → List Json
  | v, [] => [v]
  | .obj l, s :: rest =>
    match List.lookup (String.mk s) l with
    | some v => walkPath v rest
    | none => []
  | .arr l, s :: rest =>
    if s.all Char.isDigit then
      match l[natFromDigits s]? with
      | some v => walkPath v rest
      | none => []
    else []
  | _, _ => []

/-- Query entry point over `walkPath`. -/
def jsonPathQuery (root : Json) (path : String) : List Json :=
  let segs := splitOnChar '.' path.toList
  if segs.any (fun s => s.isEmpty) then [] else walkPath root segs

/-- Direct translation of `Validator.replaceContext(definition, context)`:
when the whole string matches `context[N].target`, query context entry `N`
with the target path and splice the first result (JavaScript stringifies the
replacement, and an empty result list splices the string "null"); otherwise
return the string unchanged. -/
def replaceContext (definition : String) (context : List Json) : String :=
  match parseContextRef definition with
  | none => definition
  | some (i, target) =>
    match jsonPathQuery (context.getD i .null) target with
    | v :: _ => jsDisplay v
    | [] => jsDisplay .null

/-- Direct translation of `Validator.replaceResponse(definition, response)`:
query the response with the whole string as path; the first match (kept as a
value) on a hit, the unchanged string otherwise. -/
def replaceResponse (definition : String) (response : Json) : Json :=
  match jsonPathQuery response definition with
  | v :: _ => v
  | [] => .str definition

/-- State machine equivalent of one global pass of `/{([^}]+)}/g`: the
contents of the successive placeholder groups.  After an opening brace the
group interior is every following character up to the next closing brace
(braces may occur inside, newlines too); an immediately-closed pair has an
empty interior, matches nothing, and scanning resumes after it. -/
def collectGroupsAux : List Char → Option (List Char) → List String
  | [], _ => []
  | c :: rest, none =>
    if c = '{' then collectGroupsAux rest (some [])
    else collectGroupsAux rest none
  | c :: rest, some acc =>
    if c = '}' then
      if acc.isEmpty then collectGroupsAux rest none
      else String.mk acc.reverse :: collectGroupsAux rest none
    else collectGroupsAux rest (some (c :: acc))

/-- Group contents of a template string. -/
def collectGroups (s : String) : List String :=
  collectGroupsAux s.toList none

/-- The same scan, rebuilding the string with each matched group replaced by
`f` applied to its interior — the callback form of `String.replace` used by
`replaceBrackets`.  Unmatched text (including a brace pair with empty
interior and a trailing unclosed brace) is kept verbatim. -/
def replaceGroupsAux (f : String → String) : List Char → Option (List Char) → List Char
  | [], none => []
  | [], some acc => '{' :: acc.reverse
  | c :: rest, none =>
    if c = '{' then replaceGroupsAux f rest (some [])
    else c :: replaceGroupsAux f rest none
  | c :: rest, some acc =>
    if c = '}' then
      if acc.isEmpty then '{' :: '}' :: replaceGroupsAux f rest none
      else (f (String.mk acc.reverse)).toList ++ replaceGroupsAux f rest none
    else replaceGroupsAux f rest (some (c :: acc))

/-- Replace every placeholder group of `s` using `f`. -/
def replaceGroups (f : String → String) (s : String) : String :=
  String.mk (replaceGroupsAux f s.toList none)

/-- The substitution applied to one group interior by
`Validator.replaceBrackets`: context reference replacement, then — only when
a response was supplied — a response query whose hit is spliced through the
JavaScript string conversion. -/
def substituteGroup (context : List Json) (response : Option Json) (target : String) : String :=
  let t1 := replaceContext target context
  match response with
  | none => t1
  | some r =>
    match jsonPathQuery r t1 with
    | v :: _ => jsDisplay v
    | [] => t1

/-- Direct translation of `Validator.replaceBrackets(definition, context,
response)`. -/
def replaceBrackets (definition : Option String) (context : List Json)
    (response : Option Json) : Option String :=
  match definition with
  | none => none
  | some d => some (replaceGroups (substituteGroup context response) d)

/-- Resolution of one comparison operand inside `evalBrackets`: context
reference replacement, then a response query whose hit is kept as a raw
value (the source assigns `values[0]` directly), the unchanged string
otherwise. -/
def resolveOperand (context : List Json) (response : Json) (operand : String) : Json :=
  replaceResponse (replaceContext operand context) response

/-- Evaluation of one placeholder group by `Validator.evalBrackets`: a group
whose interior does not match the comparison pattern keeps its
preinitialised `result = true`; a matching group resolves both operands,
projects them through `castAsComparable` and applies the operator. -/
def evalGroup (context : List Json) (response : Json) (g : String) : Bool :=
  match parseComparison g with
  | none => true
  | some (o1, op, o2) =>
    applyOperator (castAsComparable (resolveOperand context response o1)) op
      (castAsComparable (resolveOperand context response o2))

/-- Direct translation of `Validator.evalBrackets(definition, context,
response)`: false on a null template, otherwise the conjunction of every
placeholder group's result (an empty collection of groups is vacuously
true). -/
def evalBrackets (definition : Option String) (context : List Json) (response : Json) : Bool :=
  match definition with
  | none => false
  | some d => (collectGroups d).all (evalGroup context response)

/-- The character class of the JavaScript `.` metacharacter (anything but a
line terminator). -/
def regexDotChar (c : Char) : Bool :=
  ! (c = '\n' || c = '\r' || c = '\u2028' || c = '\u2029')

/-- Whether, after an opening brace, some closing brace occurs at offset at
least one with only `.`-class characters before it — the tail of a `/{.+}/`
match attempt. -/
def dotRunHasClose : List Char → Nat → Bool
  | [], _ => false
  | c :: rest, k => (decide (1 ≤ k) && c = '}') || (regexDotChar c && dotRunHasClose rest (k + 1))

/-- Search part of the `/{.+}/` test. -/
def fallbackTestAux : List Char → Bool
  | [] => false
  | c :: rest => (c = '{' && dotRunHasClose rest 0) || fallbackTestAux rest

/-- The `/{.+}/.test(expectedBody)` guard of the expected-body fallback
comparison (a coarser brace test than the placeholder-group pattern: the
interior may not span line terminators, but may contain closing braces). -/
def fallbackTest (s : String) : Bool :=
  fallbackTestAux s.toList

/-- Direct translation of `Validator.stringifyObject(object)`: the empty
string for `null`, JSON serialization otherwise.  The `Buffer` branch of the
source concerns raw transport payloads that never enter the modelled JSON
domain. -/
def stringifyObject : Json → String
  | .null => ""
  | d => jsonStringify d

/-- Direct translation of the expected-body assertion of `Validator.invoke`
(source lines 410-417): fail when `evalBrackets` is false; otherwise fail
when the template does not pass the `/{.+}/` brace test and the serialized
actual body differs from the serialized template; otherwise pass. -/
def checkExpectedBody (expectedBody : Option String) (context : List Json)
    (responseBody : Json) : Except Err Unit :=
  match expectedBody with
  | none => .ok ()
  | some eb =>
    if ! evalBrackets (some eb) context responseBody then
      .error (.validation "Response body differs from expected value." none)
    else if ! fallbackTest eb && stringifyObject responseBody != stringifyObject (.str eb) then
      .error (.validation "Response body differs from expected value." none)
    else .ok ()

/-- One call of a test sequence (`testset.d.ts`, interface `Invoke`).  The
`request`/`response` sub-objects are consumed exclusively by the per-step
pipeline abstracted as the step collaborator of `invokeRun`, so only the
fields the modelled recursion itself reads are carried here. -/
structure Invoke where
  path : Option String
  method : Option String
  spec : Option String
  contextPath : Option String

/-- One test case (`testset.d.ts`, interface `TestCase`); a missing
`sequence` is `none`. -/
structure TestCase where
  title : String
  contextPath : Option String
  sequence : Option (List Invoke)

/-- Observable outcome of running (a tail of) one test case's sequence:
which step indices had their processing started, the contents of the
case's context store when the run ended, and the error that aborted it, if
any. -/
structure SeqOutcome where
  executed : List Nat
  context : List Json
  error : Option Err

/-- Record of one executed test case. -/
structure CaseRecord where
  index : Nat
  title : String
  outcome : SeqOutcome

/-- Direct translation of the recursion of `Validator.invoke(contextPath,
sequence, index, context)`.  The source walks the sequence by an index that
only ever grows by one, so the recursion is carried here on the suffix
`sequence.drop index` while `index` stays as the label the outcome records:
the guard `index + 1 < sequence.length` of the source is exactly "the suffix
after the current step is non-empty".  The body of one step — request
construction, header substitution, parameter extraction, the HTTP transport
collaborator and the response checks (source lines 181-418) — is abstracted
as `step`, which receives the context path, the step's `Invoke` and the
current context store and returns the response body or the error the step
threw; the source recursion then appends the body to the context store
(`context.push`) and continues with the next index, while an error
propagates immediately, leaving the context store untouched.  An empty
suffix models indexing past the end of the sequence (never reached from
`executeTestCases`): reading `invoke.path` on `undefined` throws a
`TypeError`. -/
def invokeRun (step : String → Invoke → List Json → Except Err Json) (contextPath : String) :
    List Invoke → Nat → List Json → SeqOutcome
  | [], _, context => ⟨[], context, some .typeErr⟩
  | inv :: rest, index, context =>
    match step contextPath inv context with
    | .error e => ⟨[index], context, some e⟩
    | .ok body =>
      let context2 := context ++ [body]
      match rest with
      | [] => ⟨[index], context2, none⟩
      | r :: rs =>
        let out := invokeRun step contextPath (r :: rs) (index + 1) context2
        ⟨index :: out.executed, out.context, out.error⟩

/-- Direct translation of `Validator.executeTestCases(testCases, index)`,
carried on the suffix of still-unprocessed test cases with `index` as the
label of the current one (the source's `index + 1 < testCases.length` guard
is "the suffix after the current case is non-empty").  A test case whose
sequence is missing or empty makes the function return at once — which ends
the whole run; recursing to the next case happens only on the non-empty
path.  A non-empty case runs its sequence from index 0 with a fresh context
store; an error is caught here at the case boundary (the source only logs
it), and the next case is executed whenever one remains. -/
def executeTestCases (step : String → Invoke → List Json → Except Err Json) :
    List TestCase → Nat → List CaseRecord
  | [], _ => []
  | tc :: rest, index =>
    match tc.sequence with
    | none => []
    | some seq =>
      if seq.isEmpty then []
      else
        let outcome := invokeRun step (tc.contextPath.getD "") seq 0 []
        ⟨index, tc.title, outcome⟩ ::
          (match rest with
           | [] => []
           | r :: rs => executeTestCases step (r :: rs) (index + 1))

/-! Concrete schema nodes, test cases and step collaborators used by the
witnesses and counterexamples below. -/

/-- A plain `type: string` schema node. -/
def strSchema : Schema :=
  .mk none none none none (some "string") none none none none none none none none none none none

/-- A node carrying only `oneOf: [strSchema]`. -/
def oneOfStrSchema : Schema :=
  .mk (some [strSchema]) none none none none none none none none none none none none none none none

/-- A node carrying only `allOf: [strSchema]`. -/
def allOfStrSchema : Schema :=
  .mk none none (some [strSchema]) none none none none none none none none none none none none none

/-- A `type: number` node with `exclusiveMinimum: 5`. -/
def exclMin5Schema : Schema :=
  .mk none none none none (some "number") none none none none none none none none none (some 5) none

/-- A `type: number` node with `exclusiveMaximum: 5`. -/
def exclMax5Schema : Schema :=
  .mk none none none none (some "number") none none none none none none none none none none (some 5)

/-- A `type: number` node with `minimum: 3` and `maximum: 7`. -/
def minMaxSchema : Schema :=
  .mk none none none none (some "number") none none none none none none none (some 3) (some 7) none none

/-- A `type: object` node without a `properties` table. -/
def objNoPropsSchema : Schema :=
  .mk none none none none (some "object") none none none none none none none none none none none

/-- A `type: object` node with a single property `a` of type string. -/
def objPropsSchema : Schema :=
  .mk none none none none (some "object") (some [("a", strSchema)]) none none none none none none none none none none

/-- A node carrying only `$ref: #/components/schemas/A`. -/
def refOnlySchema : Schema :=
  .mk none none none (some "#/components/schemas/A") none none none none none none none none none none none none

/-- A step collaborator that always succeeds with a `null` body. -/
def okStep : String → Invoke → List Json → Except Err Json :=
  fun _ _ _ => .ok .null

/-- A step collaborator that fails on the very first step of a sequence and
succeeds (echoing the context length) afterwards. -/
def failFirstStep : String → Invoke → List Json → Except Err Json :=
  fun _ inv ctx =>
    match inv.path with
    | some "/fail" => .error (.httpErr "boom")
    | _ => .ok (.num ctx.length)

/-- An invoke whose step processing succeeds under `failFirstStep`. -/
def okInvoke : Invoke := ⟨some "/ok", some "GET", none, none⟩

/-- An invoke whose step processing fails under `failFirstStep`. -/
def failInvoke : Invoke := ⟨some "/fail", some "GET", none, none⟩

/-- A test case with an empty sequence. -/
def emptySeqCase : TestCase := ⟨"empty", none, some []⟩

/-- A test case with one step. -/
def singleStepCase : TestCase := ⟨"single", none, some [okInvoke]⟩

/-- A three-step test case whose first step fails under `failFirstStep`. -/
def failingCase : TestCase := ⟨"failing", none, some [failInvoke, okInvoke, okInvoke]⟩

/-- A node carrying an empty `oneOf` array. -/
def emptyOneOfSchema : Schema :=
  .mk (some []) none none none none none none none none none none none none none none none

/-- A node carrying an empty `anyOf` array. -/
def emptyAnyOfSchema : Schema :=
  .mk none (some []) none none none none none none none none none none none none none none

/-- A node carrying an empty `allOf` array. -/
def emptyAllOfSchema : Schema :=
  .mk none none (some []) none none none none none none none none none none none none none

/-! Theorems.  Each claim of the specification review is settled by exactly
one theorem below (with a witness instantiation when the theorem carries
hypotheses, and a concrete counterexample where the claim as stated fails on
the source). -/

/-- Helper: a successful validation passes. -/
theorem passes_ok (u : Unit) : passes (.ok u) = true := rfl

/-- Helper: a failed validation does not pass. -/
theorem passes_error (e : Err) : passes (.error e) = false := rfl

/-- Helper: a `forEach` with a throwing body succeeds exactly when the body
succeeds on every element. -/
theorem passes_forEachE (l : List α) (f : α → Except Err Unit) :
    passes (forEachE l f) = true ↔ ∀ a ∈ l, passes (f a) = true := by
  induction l with
  | nil => simp [forEachE, passes_ok]
  | cons a rest ih =>
    cases h : f a with
    | error e => simp [forEachE, h, passes_error]
    | ok u => simp [forEachE, h, passes_ok, ih]

/-- Claim C1 (code bug, evaluation at the failing inputs): the claim says a
node carrying `oneOf`/`anyOf` succeeds whenever one branch validates and an
`allOf` node succeeds iff every branch does, reporting a captured branch
error on failure.  The source instead falls through after the composition
stage into the `schema.type == null` check, so a composition-only node is
always rejected as an invalid schema even when its branches validate — here
the string "x" validates against the lone branch of `oneOf: [string]` (first
conjunct) yet the `oneOf` node itself throws `Schema is invalid` (second
conjunct), and likewise for `allOf` (third conjunct); and when every branch
fails, the `catch (error) { error = error }` slip throws the JavaScript
`undefined` instead of the captured branch error (fourth conjunct). -/
theorem c1_composition_code_behavior :
    validateJson [] 2 (.str "x") strSchema none false = .ok () ∧
    validateJson [] 2 (.str "x") oneOfStrSchema none false = .error .invalidSchema ∧
    validateJson [] 2 (.str "x") allOfStrSchema none false = .error .invalidSchema ∧
    validateJson [] 2 (.num 3) oneOfStrSchema none false = .error .undef :=
  ⟨rfl, rfl, rfl, rfl⟩

/-- Claim C2 (code bug, evaluation at the failing input): the claim says a
test case with a missing or empty sequence is skipped and every following
case still executes.  In the source `executeTestCases` returns outright on
an empty sequence, before the recursion to the next index, so the remaining
cases never run: with the empty case first, the run produces no case record
at all — the following one-step case is never executed (first conjunct),
although the same case executes fine when the empty case is absent (second
conjunct). -/
theorem c2_empty_sequence_stops_run :
    executeTestCases okStep [emptySeqCase, singleStepCase] 0 = [] ∧
    executeTestCases okStep [singleStepCase] 0 = [⟨0, "single", ⟨[0], [.null], none⟩⟩] :=
  ⟨rfl, rfl⟩

/-- Claim C3 (confirmed): a step error makes `invoke` record only the failing
step, leave the context store untouched and surface the error (first part);
a successful step appends its response body to the context store before the
next step runs — the continuation receives exactly `ctx ++ [body]` (second
part); and at the case boundary the error is caught: the failed case's
record is produced and the remaining test cases still execute (third
part). -/
theorem c3_step_failure_isolation :
    (∀ (step : String → Invoke → List Json → Except Err Json) (cp : String) (inv : Invoke)
        (rest : List Invoke) (i : Nat) (ctx : List Json) (e : Err),
        step cp inv ctx = .error e →
          invokeRun step cp (inv :: rest) i ctx = ⟨[i], ctx, some e⟩) ∧
    (∀ (step : String → Invoke → List Json → Except Err Json) (cp : String) (inv r : Invoke)
        (rs : List Invoke) (i : Nat) (ctx : List Json) (b : Json),
        step cp inv ctx = .ok b →
          invokeRun step cp (inv :: r :: rs) i ctx =
            ⟨i :: (invokeRun step cp (r :: rs) (i + 1) (ctx ++ [b])).executed,
             (invokeRun step cp (r :: rs) (i + 1) (ctx ++ [b])).context,
             (invokeRun step cp (r :: rs) (i + 1) (ctx ++ [b])).error⟩) ∧
    (∀ (step : String → Invoke → List Json → Except Err Json) (tc r : TestCase)
        (rs : List TestCase) (i : Nat) (seq : List Invoke),
        tc.sequence = some seq → seq.isEmpty = false →
          executeTestCases step (tc :: r :: rs) i =
            ⟨i, tc.title, invokeRun step (tc.contextPath.getD "") seq 0 []⟩ ::
              executeTestCases step (r :: rs) (i + 1)) := by
  refine ⟨?_, ?_, ?_⟩
  · intro step cp inv rest i ctx e h
    rw [invokeRun.eq_2, h]
  · intro step cp inv r rs i ctx b h
    rw [invokeRun.eq_2, h]
  · intro step tc r rs i seq hseq hne
    rw [executeTestCases.eq_3, hseq]
    simp [hne]

/-- Witness for C3: under `failFirstStep`, the three-step failing sequence
records only step 0 with its error and untouched context; a successful step
hands `[] ++ [body]` to the continuation; and the case after the failing
case still executes. -/
theorem c3_witness :
    invokeRun failFirstStep "" [failInvoke, okInvoke, okInvoke] 0 [] =
      ⟨[0], [], some (.httpErr "boom")⟩ ∧
    invokeRun failFirstStep "" [okInvoke, okInvoke] 0 [] =
      ⟨0 :: (invokeRun failFirstStep "" [okInvoke] (0 + 1) ([] ++ [.num 0])).executed,
       (invokeRun failFirstStep "" [okInvoke] (0 + 1) ([] ++ [.num 0])).context,
       (invokeRun failFirstStep "" [okInvoke] (0 + 1) ([] ++ [.num 0])).error⟩ ∧
    executeTestCases failFirstStep [failingCase, singleStepCase] 0 =
      ⟨0, failingCase.title,
        invokeRun failFirstStep (failingCase.contextPath.getD "")
          [failInvoke, okInvoke, okInvoke] 0 []⟩ ::
        executeTestCases failFirstStep [singleStepCase] (0 + 1) :=
  ⟨c3_step_failure_isolation.1 failFirstStep "" failInvoke [okInvoke, okInvoke] 0 []
      (.httpErr "boom") rfl,
   c3_step_failure_isolation.2.1 failFirstStep "" okInvoke okInvoke [] 0 [] (.num 0) rfl,
   c3_step_failure_isolation.2.2 failFirstStep failingCase singleStepCase [] 0
      [failInvoke, okInvoke, okInvoke] rfl rfl⟩

/-- Claim C6 (code bug, evaluation at the failing input): the claim says
`minimum`/`maximum` are inclusive and `exclusiveMinimum`/`exclusiveMaximum`
are exclusive.  The source tests `data < schema.exclusiveMinimum` (instead
of `<=`), so the boundary value 5 passes an `exclusiveMinimum: 5` schema
(first conjunct), while everything else behaves as claimed: 4 is below the
exclusive minimum (second), the boundary fails `exclusiveMaximum` (third),
and `minimum`/`maximum` admit their boundary values and reject beyond
(remaining conjuncts). -/
theorem c6_number_bounds_code_behavior :
    validateJson [] 1 (.num 5) exclMin5Schema none false = .ok () ∧
    validateJson [] 1 (.num 4) exclMin5Schema none false =
      .error (.validation "The value is below the minimum value." none) ∧
    validateJson [] 1 (.num 5) exclMax5Schema none false =
      .error (.validation "The value is above the maximum value." none) ∧
    validateJson [] 1 (.num 3) minMaxSchema none false = .ok () ∧
    validateJson [] 1 (.num 7) minMaxSchema none false = .ok () ∧
    validateJson [] 1 (.num 2) minMaxSchema none false =
      .error (.validation "The value is below the minimum value." none) ∧
    validateJson [] 1 (.num 8) minMaxSchema none false =
      .error (.validation "The value is above the maximum value." none) :=
  ⟨rfl, rfl, rfl, rfl, rfl, rfl, rfl⟩

/-- Claim C8 (confirmed): with context entry 0 being the object
`{"foo": "bar"}`, substituting the template whose single placeholder group is
`context[0].foo` yields the literal string "bar". -/
theorem c8_context_substitution_round_trip :
    replaceBrackets (some "\x7bcontext[0].foo\x7d") [.obj [("foo", .str "bar")]] none =
      some "bar" :=
  rfl

/-- Claim C10 (confirmed): in assertion mode every placeholder group whose
interior does not match the `operand OP operand` comparison pattern keeps its
preinitialised `result = true`, so a template all of whose groups are
malformed evaluates to true for every context and response. -/
theorem c10_malformed_groups_vacuously_true (d : String) (ctx : List Json) (resp : Json)
    (h : ∀ g ∈ collectGroups d, parseComparison g = none) :
    evalBrackets (some d) ctx resp = true := by
  simp only [evalBrackets, List.all_eq_true]
  intro g hg
  simp [evalGroup, h g hg]

/-- Witness for C10: a template consisting of the malformed groups `foo` (no
operator) and `bar baz` (two parts, no operator class) vacuously passes
against an arbitrary response. -/
theorem c10_witness :
    evalBrackets (some "\x7bfoo\x7d\x7bbar baz\x7d") [] (.num 1) = true :=
  c10_malformed_groups_vacuously_true "\x7bfoo\x7d\x7bbar baz\x7d" [] (.num 1) (by decide)

/-- Claim C9 (corrected) — counterexample to the claim as stated: the
template whose text is the four characters brace, closing brace, `x`,
closing brace contains no placeholder group (first conjunct), so the claim
requires the assertion to succeed only when the serialized actual body
equals the serialized template; but against the body `1`, whose
serialization differs from the template's (third conjunct), the assertion
nevertheless succeeds (second conjunct), because the fallback equality check
is guarded by the coarser `/{.+}/` test, which this template passes. -/
theorem c9_counterexample :
    collectGroups "\x7b\x7dx\x7d" = [] ∧
    checkExpectedBody (some "\x7b\x7dx\x7d") [] (.num 1) = .ok () ∧
    stringifyObject (.num 1) ≠ stringifyObject (.str "\x7b\x7dx\x7d") :=
  ⟨rfl, rfl, by decide⟩

/-- Claim C9 (corrected, amended): for an expected-body template containing
no placeholder group and also failing the coarser `/{.+}/` brace test that
guards the fallback, the assertion succeeds iff the JSON serialization of
the actual body equals the JSON serialization of the template.  (A template
with no placeholder group that still matches `/{.+}/`, such as the
counterexample's, passes unconditionally.) -/
theorem c9_no_placeholder_exact_equality (eb : String) (ctx : List Json) (body : Json)
    (h1 : collectGroups eb = []) (h2 : fallbackTest eb = false) :
    checkExpectedBody (some eb) ctx body = .ok () ↔
      stringifyObject body = stringifyObject (.str eb) := by
  simp only [checkExpectedBody, evalBrackets, h1, h2, List.all_nil]
  by_cases hb : stringifyObject body = stringifyObject (.str eb)
  · simp [hb]
  · simp [hb]

/-- Witness for C9: the placeholder-free, brace-free template "hello"
asserts exact serialized equality with the actual body. -/
theorem c9_witness :
    checkExpectedBody (some "hello") [] (.str "hello") = .ok () ↔
      stringifyObject (.str "hello") = stringifyObject (.str "hello") :=
  c9_no_placeholder_exact_equality "hello" [] (.str "hello") rfl rfl

/-- Claim C7 (confirmed): under the comparable projection, "10" equals
"10.0" under the `=` operator (both become the number 10); the ISO date-time
"2024-01-01T00:00:00Z" is less than "2024-01-02T00:00:00Z" under `<` (both
become epoch milliseconds); and the literal string "null" compares equal to
an operand exactly when that operand projects to null — in particular to an
actual JSON null, and to nothing that projects to a number, a date or an
ordinary string. -/
theorem c7_comparable_projection :
    applyOperator (castAsComparable (.str "10")) "=" (castAsComparable (.str "10.0")) = true ∧
    applyOperator (castAsComparable (.str "2024-01-01T00:00:00Z")) "<"
      (castAsComparable (.str "2024-01-02T00:00:00Z")) = true ∧
    (applyOperator (castAsComparable (.str "null")) "=" (castAsComparable .null) = true ∧
      ∀ j : Json,
        (applyOperator (castAsComparable (.str "null")) "=" (castAsComparable j) = true ↔
          castAsComparable j = .nullv)) := by
  refine ⟨rfl, rfl, rfl, fun j => ?_⟩
  show jsEqC .nullv (castAsComparable j) = true ↔ castAsComparable j = .nullv
  generalize castAsComparable j = c
  cases c <;> simp [jsEqC]

/-- Claim C5 (corrected) — counterexample to the claim as stated: a node
carrying only `$ref` has no `type` and no composition keyword, yet when the
reference resolves to a typed component, validation proceeds against the
resolved node and succeeds here instead of raising `InvalidSchemaDefinition`. -/
theorem c5_counterexample :
    refOnlySchema.type = none ∧ refOnlySchema.oneOf = none ∧ refOnlySchema.anyOf = none ∧
      refOnlySchema.allOf = none ∧
      validateJson [("A", strSchema)] 2 (.str "x") refOnlySchema none false = .ok () :=
  ⟨rfl, rfl, rfl, rfl, rfl⟩

/-- Claim C5 (corrected, amended): a schema node with neither `type`, nor
any composition keyword, nor `$ref` raises `InvalidSchemaDefinition` for
every input value (first part); and an empty array in the composition
keyword the source examines — `oneOf` first, `anyOf` only when `oneOf` is
absent, `allOf` only when both are absent — likewise raises
`InvalidSchemaDefinition` for every input value (remaining parts). -/
theorem c5_invalid_schema_definition :
    (∀ (comps : List (String × Schema)) (fuel : Nat) (data : Json) (key : Option String)
        (cast : Bool) (s : Schema),
        s.oneOf = none → s.anyOf = none → s.allOf = none → s.ref = none → s.type = none →
          validateJson comps (fuel + 1) data s key cast = .error .invalidSchema) ∧
    (∀ (comps : List (String × Schema)) (fuel : Nat) (data : Json) (key : Option String)
        (cast : Bool) (s : Schema),
        s.oneOf = some [] →
          validateJson comps (fuel + 1) data s key cast = .error .invalidSchema) ∧
    (∀ (comps : List (String × Schema)) (fuel : Nat) (data : Json) (key : Option String)
        (cast : Bool) (s : Schema),
        s.oneOf = none → s.anyOf = some [] →
          validateJson comps (fuel + 1) data s key cast = .error .invalidSchema) ∧
    (∀ (comps : List (String × Schema)) (fuel : Nat) (data : Json) (key : Option String)
        (cast : Bool) (s : Schema),
        s.oneOf = none → s.anyOf = none → s.allOf = some [] →
          validateJson comps (fuel + 1) data s key cast = .error .invalidSchema) := by
  refine ⟨?_, ?_, ?_, ?_⟩
  · intro comps fuel data key cast s h1 h2 h3 h4 h5
    simp only [validateJson, h1, h2, h3, h4, h5]
  · intro comps fuel data key cast s h1
    simp only [validateJson, h1, List.isEmpty_nil, if_true]
  · intro comps fuel data key cast s h1 h2
    simp only [validateJson, h1, h2, List.isEmpty_nil, if_true]
  · intro comps fuel data key cast s h1 h2 h3
    simp only [validateJson, h1, h2, h3, List.isEmpty_nil, if_true]

/-- Witness for C5: the empty schema node and the three empty-composition
nodes each raise `InvalidSchemaDefinition` on a concrete value. -/
theorem c5_witness :
    validateJson [] 1 (.obj []) Schema.empty none false = .error .invalidSchema ∧
    validateJson [] 1 (.str "x") emptyOneOfSchema none false = .error .invalidSchema ∧
    validateJson [] 1 (.str "x") emptyAnyOfSchema none false = .error .invalidSchema ∧
    validateJson [] 1 (.str "x") emptyAllOfSchema none false = .error .invalidSchema :=
  ⟨c5_invalid_schema_definition.1 [] 0 (.obj []) none false Schema.empty rfl rfl rfl rfl rfl,
   c5_invalid_schema_definition.2.1 [] 0 (.str "x") none false emptyOneOfSchema rfl,
   c5_invalid_schema_definition.2.2.1 [] 0 (.str "x") none false emptyAnyOfSchema rfl rfl,
   c5_invalid_schema_definition.2.2.2 [] 0 (.str "x") none false emptyAllOfSchema rfl rfl rfl⟩

/-- Claim C4 (corrected) — counterexample to the claim as stated: the object
value `{"a": 1}` presents the key `a` (second conjunct), the `type: object`
schema node has no `properties` table at all, so no key has a matching
`properties` entry (third conjunct), and yet validation succeeds (first
conjunct) — the source only checks keys when `schema.properties != null`,
so "an unknown key is always a failure" does not hold for a node without
`properties`. -/
theorem c4_counterexample :
    passes (validateJson [] 1 (.obj [("a", .num 1)]) objNoPropsSchema none false) = true ∧
    (jsEntries (.obj [("a", .num 1)])).map Prod.fst = ["a"] ∧
    objNoPropsSchema.properties = none :=
  ⟨rfl, rfl, rfl⟩

/-- Claim C4 (corrected, amended): for a plain `type: object` node (no
composition keywords, no `$ref`), validation succeeds iff the value passes
the JavaScript object test (`null` excluded, arrays admitted with their
indices as keys) and, for every key present in the value, either the node
has no `properties` table (in which case nothing at all is checked), or the
key has a matching `properties` entry whose schema (after `$ref`
resolution) recursively validates the key's value. -/
theorem c4_object_validation (comps : List (String × Schema)) (fuel : Nat) (data : Json)
    (s : Schema) (key : Option String) (cast : Bool)
    (h1 : s.oneOf = none) (h2 : s.anyOf = none) (h3 : s.allOf = none)
    (h4 : s.ref = none) (h5 : s.type = some "object") :
    passes (validateJson comps (fuel + 1) data s key cast) = true ↔
      (jsObjectLike data = true ∧
        ∀ kv ∈ jsEntries data,
          s.properties = none ∨
            ∃ props ps, s.properties = some props ∧ List.lookup kv.1 props = some ps ∧
              passes (validateJson comps fuel kv.2 (resolveSubschema comps ps) (some kv.1) false) =
                true) := by
  obtain ⟨o, a2, al, r, t, props, it, mi, ma, mil, mal, en, mn, mx, emn, emx⟩ := s
  simp only [Schema.oneOf] at h1
  simp only [Schema.anyOf] at h2
  simp only [Schema.allOf] at h3
  simp only [Schema.ref] at h4
  simp only [Schema.type] at h5
  subst h1; subst h2; subst h3; subst h4; subst h5
  simp only [Schema.properties]
  have hred :
      validateJson comps (fuel + 1) data
        (.mk none none none none (some "object") props it mi ma mil mal en mn mx emn emx)
        key cast =
      (if jsObjectLike data then
        forEachE (jsEntries data) (fun kv =>
          match props with
          | none => Except.ok ()
          | some pl =>
            match List.lookup kv.1 pl with
            | none => Except.error (Err.validation "Schema not found." (some kv.1))
            | some ps => validateJson comps fuel kv.2 (resolveSubschema comps ps) (some kv.1) false)
      else Except.error (Err.validation "Type mismatch." key)) := rfl
  rw [hred]
  by_cases hobj : jsObjectLike data
  · rw [if_pos hobj, passes_forEachE]
    simp only [hobj, true_and]
    apply forall₂_congr
    intro kv hkv
    cases props with
    | none => simp [passes_ok]
    | some pl =>
      cases hl : List.lookup kv.1 pl with
      | none => simp [hl, passes_error]
      | some ps => simp [hl]
  · rw [if_neg hobj]
    simp only [passes_error, Bool.false_eq_true, false_iff]
    intro hc
    exact hobj (by simp [hc.1])

/-- Witness for C4: the object `{"a": "v"}` against the `type: object` node
whose `properties` table maps `a` to a string schema. -/
theorem c4_witness :
    passes (validateJson [] (1 + 1) (.obj [("a", .str "v")]) objPropsSchema none false) = true ↔
      (jsObjectLike (.obj [("a", .str "v")]) = true ∧
        ∀ kv ∈ jsEntries (.obj [("a", .str "v")]),
          objPropsSchema.properties = none ∨
            ∃ props ps, objPropsSchema.properties = some props ∧
              List.lookup kv.1 props = some ps ∧
              passes (validateJson [] 1 kv.2 (resolveSubschema [] ps) (some kv.1) false) = true) :=
  c4_object_validation [] 1 (.obj [("a", .str "v")]) objPropsSchema none false
    rfl rfl rfl rfl rfl

end Lupinus
